import Mathlib

/-!
Verification of the connection registry and broadcast core of the
real-time visitor tracker backend, as implemented in src/backend/server.js.

The shallow embedding below follows the source:
  - the registry state is the in-memory storage of server.js lines 18-20:
    a Map from session id to a Set of response objects, plus an integer
    counter totalConnections (a JS number, so modelled as Int: the
    decrement on the detach path is unconditional once the visitor entry
    exists and can in principle drive the counter negative);
  - a JS Map is insertion-ordered with unique keys, modelled as an
    association list to which fresh keys are appended;
  - a JS Set is insertion-ordered with unique elements, modelled as a
    duplicate-free list where add appends when absent and delete erases;
  - response objects (connection handles) are identified by a Nat id,
    visitor/session ids are opaque strings.
-/

namespace VisitorTracker

/-- Opaque visitor/session identifier (the visitorId cookie value). -/
abbrev VisitorId := String

/-- One live connection handle (a response object), identified by a number. -/
abbrev Handle := Nat

/-- The shared mutable state of server.js lines 18-20:
activeConnections : Map of sessionId to Set of response objects, and the
counter totalConnections. -/
structure RegistryState where
  activeConnections : List (VisitorId × List Handle)
  totalConnections : Int
deriving DecidableEq, Repr

/-- The initial state: empty map, counter zero (server.js lines 19-20). -/
def registryEmpty : RegistryState := ⟨[], 0⟩

/-- JS Set.add: append the element when absent, no-op when present. -/
def addSet (h : Handle) (S : List Handle) : List Handle :=
  if h ∈ S then S else S ++ [h]

/-- JS Map.get on the association list: the entry stored under a key. -/
def mapGet (v : VisitorId) : List (VisitorId × List Handle) → Option (List Handle)
  | [] => none
  | (k, S) :: t => if k = v then some S else mapGet v t

/-- The attach path of the /events endpoint (server.js lines 66-70):
ensure a set exists for the session id, add the response object to it,
and increment totalConnections unconditionally. -/
def attach (v : VisitorId) (h : Handle) (s : RegistryState) : RegistryState :=
  match mapGet v s.activeConnections with
  | none =>
      { activeConnections := s.activeConnections ++ [(v, [h])],
        totalConnections := s.totalConnections + 1 }
  | some S =>
      { activeConnections :=
          s.activeConnections.map (fun p => (p.1, if p.1 = v then addSet h S else p.2)),
        totalConnections := s.totalConnections + 1 }

/-- The detach path of the close handler (server.js lines 88-97):
if the session has an entry, delete the response object from its set,
decrement totalConnections (unconditionally within that branch), and
remove the session key when the set became empty; when the session has
no entry, do nothing at all. -/
def detach (v : VisitorId) (h : Handle) (s : RegistryState) : RegistryState :=
  match mapGet v s.activeConnections with
  | none => s
  | some S =>
      if (S.erase h).length = 0 then
        { activeConnections := s.activeConnections.filter (fun p => decide (p.1 ≠ v)),
          totalConnections := s.totalConnections - 1 }
      else
        { activeConnections :=
            s.activeConnections.map (fun p => (p.1, if p.1 = v then S.erase h else p.2)),
          totalConnections := s.totalConnections - 1 }

/-- uniqueVisitors as computed by the code: activeConnections.size
(server.js lines 40, 73, 113). -/
def uniqueVisitors (s : RegistryState) : Nat := s.activeConnections.length

/-- The keys of the map (the session ids currently present). -/
def keys (s : RegistryState) : List VisitorId := s.activeConnections.map Prod.fst

/-- Sum of the handle-set sizes over the entries of an association list. -/
def entrySizes (l : List (VisitorId × List Handle)) : Nat :=
  (l.map (fun p => p.2.length)).sum

/-- Sum of the handle-set sizes over all entries of the map. -/
def sumSizes (s : RegistryState) : Nat := entrySizes s.activeConnections

/-- The set of handles currently registered under a visitor (empty when
the visitor has no entry). -/
def currentSet (v : VisitorId) (s : RegistryState) : List Handle :=
  (mapGet v s.activeConnections).getD []

/-- Number of entries of the map whose handle set is non-empty. -/
def nonemptyEntries (s : RegistryState) : Nat :=
  (s.activeConnections.filter (fun p => decide (p.2 ≠ []))).length

/-- The registry invariant stated by the spec, together with the
representation facts of the JS data structures (unique map keys,
duplicate-free handle sets): the counter equals the sum of the set sizes
and every stored set is non-empty. -/
def StateInv (s : RegistryState) : Prop :=
  (keys s).Nodup ∧ (∀ p ∈ s.activeConnections, p.2.Nodup ∧ p.2 ≠ []) ∧
    s.totalConnections = (sumSizes s : Int)

/-- A registry operation: one call of the attach path or the detach path. -/
inductive Op where
  | attachOp (v : VisitorId) (h : Handle)
  | detachOp (v : VisitorId) (h : Handle)
deriving DecidableEq, Repr

/-- Apply one operation to a state. -/
def applyOp (s : RegistryState) : Op → RegistryState
  | .attachOp v h => attach v h s
  | .detachOp v h => detach v h s

/-- Run a sequence of operations from a state. -/
def runOps (s : RegistryState) (ops : List Op) : RegistryState := ops.foldl applyOp s

/-- A sequence of operations is well formed from a state when every attach
supplies a handle not currently in that visitor's set (the server always
attaches a freshly created response object) and every detach names a handle
currently in that visitor's set (each close handler fires once, for the
handle it registered). -/
def wfOps (s : RegistryState) : List Op → Bool
  | [] => true
  | Op.attachOp v h :: rest => decide (h ∉ currentSet v s) && wfOps (attach v h s) rest
  | Op.detachOp v h :: rest => decide (h ∈ currentSet v s) && wfOps (detach v h s) rest

/-- The snapshot pair reported for a state: (totalConnections, uniqueVisitors). -/
def snap (s : RegistryState) : Int × Nat := (s.totalConnections, uniqueVisitors s)

/-- Run the attach path once for each handle of a list, under one visitor. -/
def attachList (v : VisitorId) (hs : List Handle) (s : RegistryState) : RegistryState :=
  hs.foldl (fun t h => attach v h t) s

/-- The JSON body built by broadcastCount (server.js lines 41-45):
JSON.stringify of the object with fields totalConnections, uniqueVisitors
and timestamp, in that insertion order and without extra whitespace. -/
def jsonBody (total : Int) (unique : Nat) (ts : String) : String :=
  "\x7b\"totalConnections\":" ++ toString total ++
    ",\"uniqueVisitors\":" ++ toString unique ++
    ",\"timestamp\":\"" ++ ts ++ "\"\x7d"

/-- A count-update frame as written by broadcastCount (server.js line 49). -/
def countFrame (total : Int) (unique : Nat) (ts : String) : String :=
  "data: " ++ jsonBody total unique ts ++ "\n\n"

/-- The keep-alive frame written by the heartbeat timer (server.js line 81). -/
def heartbeatFrame : String := ": heartbeat\n\n"

/-- The heartbeat period in milliseconds (server.js line 82). -/
def heartbeatIntervalMs : Nat := 15000

/-- All handles currently registered, in map-then-set iteration order. -/
def allHandles (s : RegistryState) : List Handle :=
  s.activeConnections.flatMap (fun p => p.2)

/-- broadcastCount (server.js lines 39-52): reads uniqueVisitors from the
map size, serializes one JSON body with the current counts, and writes one
frame to every response object of every entry. The write results (the
environment's sendOk) are recorded but, as in the source, never inspected:
no retry, no abort of the iteration, no registry mutation. Returns the
(unchanged) state plus one (handle, frame, result) record per write. -/
def broadcastCount (s : RegistryState) (ts : String) (sendOk : Handle → Bool) :
    RegistryState × List (Handle × String × Bool) :=
  let unique := s.activeConnections.length
  let data := jsonBody s.totalConnections unique ts
  (s, s.activeConnections.flatMap
        (fun p => p.2.map (fun h => (h, "data: " ++ data ++ "\n\n", sendOk h))))

/-- One heartbeat tick for one connection (server.js lines 80-82): writes
the comment frame to that response object only; the write result is
ignored and the registry is not touched. -/
def heartbeatSend (s : RegistryState) (h : Handle) (sendOk : Handle → Bool) :
    RegistryState × (String × Bool) :=
  (s, (heartbeatFrame, sendOk h))

/-- The JSON document returned by the /health endpoint. -/
structure HealthResponse where
  status : String
  totalConnections : Int
  uniqueVisitors : Nat
  timestamp : String
deriving DecidableEq, Repr

/-- The /health endpoint (server.js lines 109-116): one JSON document with
the current counter, the current map size and a timestamp. -/
def healthHandler (s : RegistryState) (ts : String) : HealthResponse :=
  { status := "ok",
    totalConnections := s.totalConnections,
    uniqueVisitors := s.activeConnections.length,
    timestamp := ts }

/-- A UTC date-time broken into components, as held by a JS Date. -/
structure DateUTC where
  year : Nat
  month : Nat
  day : Nat
  hour : Nat
  minute : Nat
  second : Nat
  ms : Nat
deriving DecidableEq, Repr

/-- Component ranges of a real calendar date-time (what new Date() yields). -/
abbrev ValidDate (d : DateUTC) : Prop :=
  d.year ≤ 9999 ∧ 1 ≤ d.month ∧ d.month ≤ 12 ∧ 1 ≤ d.day ∧ d.day ≤ 31 ∧
    d.hour ≤ 23 ∧ d.minute ≤ 59 ∧ d.second ≤ 59 ∧ d.ms ≤ 999

/-- Decimal rendering padded with leading zeros to width 2. -/
def pad2 (n : Nat) : String := if n < 10 then "0" ++ toString n else toString n

/-- Decimal rendering padded with leading zeros to width 3. -/
def pad3 (n : Nat) : String :=
  if n < 10 then "00" ++ toString n
  else if n < 100 then "0" ++ toString n
  else toString n

/-- Decimal rendering padded with leading zeros to width 4. -/
def pad4 (n : Nat) : String :=
  if n < 10 then "000" ++ toString n
  else if n < 100 then "00" ++ toString n
  else if n < 1000 then "0" ++ toString n
  else toString n

/-- Modelled from the spec: the timestamp renderer used at server.js lines
44 and 114 is the JS built-in Date.prototype.toISOString, which is not part
of this repository; per the spec it yields the ISO-8601 UTC extended form
YYYY-MM-DDTHH:MM:SS.sssZ. -/
def toISOString (d : DateUTC) : String :=
  pad4 d.year ++ "-" ++ pad2 d.month ++ "-" ++ pad2 d.day ++ "T" ++
    pad2 d.hour ++ ":" ++ pad2 d.minute ++ ":" ++ pad2 d.second ++ "." ++
    pad3 d.ms ++ "Z"

/-- A string is in ISO-8601 UTC extended format: it is the fixed-width
rendering YYYY-MM-DDTHH:MM:SS.sssZ of some bounded components. -/
def IsISO8601UTC (ts : String) : Prop :=
  ∃ y mo dy h mi se ms : Nat,
    y ≤ 9999 ∧ mo ≤ 99 ∧ dy ≤ 99 ∧ h ≤ 99 ∧ mi ≤ 99 ∧ se ≤ 99 ∧ ms ≤ 999 ∧
    ts = pad4 y ++ "-" ++ pad2 mo ++ "-" ++ pad2 dy ++ "T" ++
      pad2 h ++ ":" ++ pad2 mi ++ ":" ++ pad2 se ++ "." ++ pad3 ms ++ "Z"

/-! ## Association-list lemmas -/

theorem mapGet_eq_none (l : List (VisitorId × List Handle)) (v : VisitorId) :
    mapGet v l = none ↔ ∀ p ∈ l, p.1 ≠ v := by
  induction l with
  | nil => simp [mapGet]
  | cons q t ih =>
    obtain ⟨k, S⟩ := q
    by_cases hk : k = v
    · subst hk; simp [mapGet]
    · simp [mapGet, hk, ih]

theorem mem_of_mapGet (l : List (VisitorId × List Handle)) (v : VisitorId)
    (S : List Handle) (hS : mapGet v l = some S) : (v, S) ∈ l := by
  induction l with
  | nil => simp [mapGet] at hS
  | cons q t ih =>
    obtain ⟨k, T⟩ := q
    by_cases hk : k = v
    · subst hk
      simp [mapGet] at hS
      simp [hS]
    · simp [mapGet, hk] at hS
      exact List.mem_cons_of_mem _ (ih hS)

theorem mapGet_map_update (l : List (VisitorId × List Handle)) (v : VisitorId)
    (S' : List Handle) :
    mapGet v (l.map (fun p => (p.1, if p.1 = v then S' else p.2))) =
      if (mapGet v l).isSome then some S' else none := by
  induction l with
  | nil => simp [mapGet]
  | cons q t ih =>
    obtain ⟨k, T⟩ := q
    by_cases hk : k = v
    · subst hk; simp [mapGet]
    · simp [mapGet, hk, ih]

theorem mapGet_filter_self (l : List (VisitorId × List Handle)) (v : VisitorId) :
    mapGet v (l.filter (fun p => decide (p.1 ≠ v))) = none := by
  induction l with
  | nil => simp [mapGet]
  | cons q t ih =>
    obtain ⟨k, T⟩ := q
    by_cases hk : k = v
    · subst hk; simpa [List.filter_cons] using ih
    · simpa [List.filter_cons, hk, mapGet] using ih

theorem keys_map_update (l : List (VisitorId × List Handle)) (v : VisitorId)
    (S' : List Handle) :
    (l.map (fun p => (p.1, if p.1 = v then S' else p.2))).map Prod.fst =
      l.map Prod.fst := by
  rw [List.map_map]
  exact List.map_congr_left (fun p _ => rfl)

theorem map_update_id (l : List (VisitorId × List Handle)) (v : VisitorId)
    (S' : List Handle) (hv : ∀ p ∈ l, p.1 ≠ v) :
    l.map (fun p => (p.1, if p.1 = v then S' else p.2)) = l := by
  induction l with
  | nil => rfl
  | cons q t ih =>
    obtain ⟨k, T⟩ := q
    simp only [List.map_cons]
    rw [if_neg (hv (k, T) (List.mem_cons_self _ t)),
      ih (fun p hp => hv p (List.mem_cons_of_mem _ hp))]

theorem filter_ne_id (l : List (VisitorId × List Handle)) (v : VisitorId)
    (hv : ∀ p ∈ l, p.1 ≠ v) :
    l.filter (fun p => decide (p.1 ≠ v)) = l := by
  rw [List.filter_eq_self]
  intro a ha
  simpa using hv a ha

theorem entrySizes_cons (p : VisitorId × List Handle)
    (t : List (VisitorId × List Handle)) :
    entrySizes (p :: t) = p.2.length + entrySizes t := by
  simp [entrySizes]

theorem entrySizes_append (l1 l2 : List (VisitorId × List Handle)) :
    entrySizes (l1 ++ l2) = entrySizes l1 + entrySizes l2 := by
  simp [entrySizes]

theorem entrySizes_map_update (l : List (VisitorId × List Handle)) (v : VisitorId)
    (S S' : List Handle) (hnd : (l.map Prod.fst).Nodup) (hS : mapGet v l = some S) :
    entrySizes (l.map (fun p => (p.1, if p.1 = v then S' else p.2))) + S.length =
      entrySizes l + S'.length := by
  induction l with
  | nil => simp [mapGet] at hS
  | cons q t ih =>
    obtain ⟨k, T⟩ := q
    simp only [List.map_cons, List.nodup_cons] at hnd
    by_cases hk : k = v
    · subst hk
      simp [mapGet] at hS
      subst hS
      have htail : ∀ p ∈ t, p.1 ≠ k := by
        intro p hp hcontra
        exact hnd.1 (List.mem_map.mpr ⟨p, hp, hcontra⟩)
      rw [List.map_cons, map_update_id t k S' htail, entrySizes_cons, entrySizes_cons]
      dsimp only
      rw [if_pos rfl]
      omega
    · simp only [mapGet, if_neg hk] at hS
      rw [List.map_cons, entrySizes_cons, entrySizes_cons]
      simp only [if_neg hk]
      have := ih hnd.2 hS
      omega

theorem entrySizes_filter (l : List (VisitorId × List Handle)) (v : VisitorId)
    (S : List Handle) (hnd : (l.map Prod.fst).Nodup) (hS : mapGet v l = some S) :
    entrySizes (l.filter (fun p => decide (p.1 ≠ v))) + S.length = entrySizes l := by
  induction l with
  | nil => simp [mapGet] at hS
  | cons q t ih =>
    obtain ⟨k, T⟩ := q
    simp only [List.map_cons, List.nodup_cons] at hnd
    by_cases hk : k = v
    · subst hk
      simp [mapGet] at hS
      subst hS
      have htail : ∀ p ∈ t, p.1 ≠ k := by
        intro p hp hcontra
        exact hnd.1 (List.mem_map.mpr ⟨p, hp, hcontra⟩)
      rw [List.filter_cons_of_neg (by simp), filter_ne_id t k htail, entrySizes_cons]
      dsimp only
      omega
    · simp only [mapGet, if_neg hk] at hS
      rw [List.filter_cons_of_pos (by simpa using hk), entrySizes_cons, entrySizes_cons]
      have := ih hnd.2 hS
      omega

theorem mapGet_append_fresh (l : List (VisitorId × List Handle)) (v : VisitorId)
    (S : List Handle) (hnone : mapGet v l = none) :
    mapGet v (l ++ [(v, S)]) = some S := by
  induction l with
  | nil => simp [mapGet]
  | cons q t ih =>
    obtain ⟨k, T⟩ := q
    by_cases hk : k = v
    · subst hk; simp [mapGet] at hnone
    · simp only [mapGet, if_neg hk] at hnone ⊢
      exact ih hnone

theorem keys_append_nodup (l : List (VisitorId × List Handle)) (v : VisitorId)
    (S : List Handle) (hnd : (l.map Prod.fst).Nodup) (hnone : mapGet v l = none) :
    ((l ++ [(v, S)]).map Prod.fst).Nodup := by
  have hv : v ∉ l.map Prod.fst := by
    intro hmem
    obtain ⟨p, hp, hfst⟩ := List.mem_map.mp hmem
    exact ((mapGet_eq_none l v).mp hnone p hp) hfst
  rw [List.map_append, List.map_singleton,
    (List.perm_append_singleton _ _).nodup_iff, List.nodup_cons]
  exact ⟨hv, hnd⟩

/-! ## Basic facts about the attach and detach paths -/

theorem attach_total (v : VisitorId) (h : Handle) (s : RegistryState) :
    (attach v h s).totalConnections = s.totalConnections + 1 := by
  unfold attach
  cases hM : mapGet v s.activeConnections <;> rfl

theorem detach_total_of_get (v : VisitorId) (h : Handle) (s : RegistryState)
    (S : List Handle) (hS : mapGet v s.activeConnections = some S) :
    (detach v h s).totalConnections = s.totalConnections - 1 := by
  unfold detach
  rw [hS]
  by_cases hz : (S.erase h).length = 0
  · simp [hz]
  · simp [hz]

theorem detach_of_get_none (v : VisitorId) (h : Handle) (s : RegistryState)
    (hnone : mapGet v s.activeConnections = none) : detach v h s = s := by
  unfold detach
  rw [hnone]

theorem nodup_append_single {α : Type} (L : List α) (a : α)
    (hnd : L.Nodup) (ha : a ∉ L) : (L ++ [a]).Nodup := by
  rw [(List.perm_append_singleton _ _).nodup_iff, List.nodup_cons]
  exact ⟨ha, hnd⟩

theorem detach_eq_remove (v : VisitorId) (h : Handle) (s : RegistryState)
    (S : List Handle) (hS : mapGet v s.activeConnections = some S)
    (hz : (S.erase h).length = 0) :
    detach v h s =
      { activeConnections := s.activeConnections.filter (fun p => decide (p.1 ≠ v)),
        totalConnections := s.totalConnections - 1 } := by
  unfold detach
  rw [hS]
  simp [hz]

theorem detach_eq_update (v : VisitorId) (h : Handle) (s : RegistryState)
    (S : List Handle) (hS : mapGet v s.activeConnections = some S)
    (hz : ¬(S.erase h).length = 0) :
    detach v h s =
      { activeConnections :=
          s.activeConnections.map (fun p => (p.1, if p.1 = v then S.erase h else p.2)),
        totalConnections := s.totalConnections - 1 } := by
  unfold detach
  rw [hS]
  simp [hz]

theorem attach_inv (v : VisitorId) (h : Handle) (s : RegistryState)
    (hinv : StateInv s) (hfresh : h ∉ currentSet v s) : StateInv (attach v h s) := by
  obtain ⟨hnd, hne, htot⟩ := hinv
  unfold StateInv keys sumSizes at *
  unfold attach
  cases hM : mapGet v s.activeConnections with
  | none =>
      refine ⟨?_, ?_, ?_⟩
      · exact keys_append_nodup s.activeConnections v [h] hnd hM
      · intro p hp
        rcases List.mem_append.mp hp with hp | hp
        · exact hne p hp
        · simp only [List.mem_singleton] at hp
          subst hp
          exact ⟨List.nodup_singleton h, by simp⟩
      · show s.totalConnections + 1 = (entrySizes (s.activeConnections ++ [(v, [h])]) : Int)
        rw [entrySizes_append]
        have h1 : entrySizes [(v, [h])] = 1 := rfl
        rw [h1]
        push_cast
        omega
  | some S =>
      have hfreshS : h ∉ S := by simpa [currentSet, hM] using hfresh
      have hSmem := mem_of_mapGet _ _ _ hM
      have hSnd : S.Nodup := (hne _ hSmem).1
      have haddS : addSet h S = S ++ [h] := if_neg hfreshS
      refine ⟨?_, ?_, ?_⟩
      · show ((s.activeConnections.map
            (fun p => (p.1, if p.1 = v then addSet h S else p.2))).map Prod.fst).Nodup
        rw [keys_map_update]
        exact hnd
      · intro p hp
        obtain ⟨q, hq, hpq⟩ := List.mem_map.mp hp
        subst hpq
        by_cases hk : q.1 = v
        · simp only [hk, if_pos rfl]
          rw [haddS]
          exact ⟨nodup_append_single S h hSnd hfreshS, by simp⟩
        · simp only [if_neg hk]
          exact hne q hq
      · show s.totalConnections + 1 = (entrySizes (s.activeConnections.map
            (fun p => (p.1, if p.1 = v then addSet h S else p.2))) : Int)
        have hupd := entrySizes_map_update s.activeConnections v S (addSet h S) hnd hM
        rw [haddS] at hupd
        simp only [List.length_append, List.length_singleton] at hupd
        rw [haddS]
        omega

theorem detach_inv (v : VisitorId) (h : Handle) (s : RegistryState)
    (hinv : StateInv s) (hmem : h ∈ currentSet v s) : StateInv (detach v h s) := by
  obtain ⟨hnd, hne, htot⟩ := hinv
  unfold StateInv keys sumSizes at *
  cases hM : mapGet v s.activeConnections with
  | none => simp [currentSet, hM] at hmem
  | some S =>
      have hmemS : h ∈ S := by simpa [currentSet, hM] using hmem
      have hSmem := mem_of_mapGet _ _ _ hM
      have hSnd : S.Nodup := (hne _ hSmem).1
      have hlenS : (S.erase h).length + 1 = S.length := by
        have h1 := List.length_erase_of_mem hmemS
        have h2 : 0 < S.length := List.length_pos.mpr (List.ne_nil_of_mem hmemS)
        omega
      by_cases hz : (S.erase h).length = 0
      · rw [detach_eq_remove v h s S hM hz]
        refine ⟨?_, ?_, ?_⟩
        · exact hnd.sublist ((List.filter_sublist _).map Prod.fst)
        · intro p hp
          exact hne p (List.mem_of_mem_filter hp)
        · show s.totalConnections - 1 =
            (entrySizes (s.activeConnections.filter (fun p => decide (p.1 ≠ v))) : Int)
          have hflt := entrySizes_filter s.activeConnections v S hnd hM
          omega
      · rw [detach_eq_update v h s S hM hz]
        refine ⟨?_, ?_, ?_⟩
        · show ((s.activeConnections.map
              (fun p => (p.1, if p.1 = v then S.erase h else p.2))).map Prod.fst).Nodup
          rw [keys_map_update]
          exact hnd
        · intro p hp
          obtain ⟨q, hq, hpq⟩ := List.mem_map.mp hp
          subst hpq
          by_cases hk : q.1 = v
          · rw [if_pos hk]
            refine ⟨hSnd.erase h, ?_⟩
            intro hnil
            have hnil2 : S.erase h = [] := hnil
            exact hz (by rw [hnil2]; rfl)
          · simp only [if_neg hk]
            exact hne q hq
        · show s.totalConnections - 1 = (entrySizes (s.activeConnections.map
              (fun p => (p.1, if p.1 = v then S.erase h else p.2))) : Int)
          have hupd := entrySizes_map_update s.activeConnections v S (S.erase h) hnd hM
          omega

theorem runOps_inv (ops : List Op) : ∀ s : RegistryState,
    StateInv s → wfOps s ops = true → StateInv (runOps s ops) := by
  induction ops with
  | nil => intro s hs _; simpa [runOps] using hs
  | cons op rest ih =>
      intro s hs hwf
      cases op with
      | attachOp v h =>
          rw [wfOps, Bool.and_eq_true, decide_eq_true_eq] at hwf
          have hstep := attach_inv v h s hs hwf.1
          simpa [runOps, applyOp] using ih (attach v h s) hstep hwf.2
      | detachOp v h =>
          rw [wfOps, Bool.and_eq_true, decide_eq_true_eq] at hwf
          have hstep := detach_inv v h s hs hwf.1
          simpa [runOps, applyOp] using ih (detach v h s) hstep hwf.2

theorem stateInv_empty : StateInv registryEmpty := by
  refine ⟨List.nodup_nil, ?_, rfl⟩
  intro p hp
  simp [registryEmpty] at hp

theorem filter_nonempty_id (l : List (VisitorId × List Handle))
    (hne : ∀ p ∈ l, p.2 ≠ []) : l.filter (fun p => decide (p.2 ≠ [])) = l := by
  induction l with
  | nil => rfl
  | cons q t ih =>
    rw [List.filter_cons_of_pos (by simpa using hne q (List.mem_cons_self q t)),
      ih (fun p hp => hne p (List.mem_cons_of_mem _ hp))]

theorem nonemptyEntries_eq_unique (s : RegistryState)
    (hne : ∀ p ∈ s.activeConnections, p.2 ≠ []) :
    nonemptyEntries s = uniqueVisitors s := by
  unfold nonemptyEntries uniqueVisitors
  rw [filter_nonempty_id s.activeConnections hne]

theorem attach_eq_new (v : VisitorId) (h : Handle) (s : RegistryState)
    (hnone : mapGet v s.activeConnections = none) :
    attach v h s =
      { activeConnections := s.activeConnections ++ [(v, [h])],
        totalConnections := s.totalConnections + 1 } := by
  unfold attach
  rw [hnone]

theorem attach_eq_add (v : VisitorId) (h : Handle) (s : RegistryState)
    (S : List Handle) (hS : mapGet v s.activeConnections = some S) :
    attach v h s =
      { activeConnections :=
          s.activeConnections.map (fun p => (p.1, if p.1 = v then addSet h S else p.2)),
        totalConnections := s.totalConnections + 1 } := by
  unfold attach
  rw [hS]

theorem attach_isSome (v : VisitorId) (h : Handle) (s : RegistryState) :
    (mapGet v (attach v h s).activeConnections).isSome = true := by
  cases hM : mapGet v s.activeConnections with
  | none =>
      rw [attach_eq_new v h s hM]
      simp [mapGet_append_fresh s.activeConnections v [h] hM]
  | some S =>
      rw [attach_eq_add v h s S hM]
      simp [mapGet_map_update, hM]

theorem attach_unique (v : VisitorId) (h : Handle) (s : RegistryState) :
    uniqueVisitors (attach v h s) =
      uniqueVisitors s + (if (mapGet v s.activeConnections).isSome then 0 else 1) := by
  cases hM : mapGet v s.activeConnections with
  | none =>
      rw [attach_eq_new v h s hM]
      simp [uniqueVisitors]
  | some S =>
      rw [attach_eq_add v h s S hM]
      simp [uniqueVisitors]

theorem attachList_cons (v : VisitorId) (h : Handle) (hs : List Handle)
    (s : RegistryState) : attachList v (h :: hs) s = attachList v hs (attach v h s) := rfl

theorem attachList_present (v : VisitorId) (hs : List Handle) : ∀ s : RegistryState,
    (mapGet v s.activeConnections).isSome = true →
    (attachList v hs s).totalConnections = s.totalConnections + hs.length ∧
    uniqueVisitors (attachList v hs s) = uniqueVisitors s := by
  induction hs with
  | nil =>
      intro s _
      exact ⟨by simp [attachList], rfl⟩
  | cons h t ih =>
      intro s hsome
      have h2 := ih (attach v h s) (attach_isSome v h s)
      rw [attachList_cons]
      refine ⟨?_, ?_⟩
      · rw [h2.1, attach_total, List.length_cons]
        push_cast
        ring
      · rw [h2.2, attach_unique, if_pos hsome]
        rfl

theorem map_fst_of_tag (X : String) (sendOk : Handle → Bool) (l : List Handle) :
    (l.map (fun h => (h, X, sendOk h))).map
      (fun e : Handle × String × Bool => e.1) = l := by
  induction l with
  | nil => rfl
  | cons a t ih => simp [ih]

theorem broadcast_targets (l : List (VisitorId × List Handle)) (X : String)
    (sendOk : Handle → Bool) :
    (l.flatMap (fun p => p.2.map (fun h => (h, X, sendOk h)))).map
      (fun e : Handle × String × Bool => e.1) = l.flatMap (fun p => p.2) := by
  induction l with
  | nil => rfl
  | cons q t ih =>
      simp only [List.flatMap_cons, List.map_append, ih, map_fst_of_tag]

theorem addSet_ne_nil (h : Handle) (S : List Handle) : addSet h S ≠ [] := by
  unfold addSet
  by_cases hm : h ∈ S
  · rw [if_pos hm]
    exact List.ne_nil_of_mem hm
  · rw [if_neg hm]
    simp

theorem attach_nonempty (v : VisitorId) (h : Handle) (s : RegistryState)
    (hne : ∀ p ∈ s.activeConnections, p.2 ≠ []) :
    ∀ p ∈ (attach v h s).activeConnections, p.2 ≠ [] := by
  cases hM : mapGet v s.activeConnections with
  | none =>
      rw [attach_eq_new v h s hM]
      intro p hp
      rcases List.mem_append.mp hp with hp | hp
      · exact hne p hp
      · simp only [List.mem_singleton] at hp
        subst hp
        simp
  | some S =>
      rw [attach_eq_add v h s S hM]
      intro p hp
      obtain ⟨q, hq, hpq⟩ := List.mem_map.mp hp
      subst hpq
      by_cases hk : q.1 = v
      · rw [if_pos hk]
        exact addSet_ne_nil h S
      · rw [if_neg hk]
        exact hne q hq

theorem detach_nonempty (v : VisitorId) (h : Handle) (s : RegistryState)
    (hne : ∀ p ∈ s.activeConnections, p.2 ≠ []) :
    ∀ p ∈ (detach v h s).activeConnections, p.2 ≠ [] := by
  cases hM : mapGet v s.activeConnections with
  | none =>
      rw [detach_of_get_none v h s hM]
      exact hne
  | some S =>
      by_cases hz : (S.erase h).length = 0
      · rw [detach_eq_remove v h s S hM hz]
        intro p hp
        exact hne p (List.mem_of_mem_filter hp)
      · rw [detach_eq_update v h s S hM hz]
        intro p hp
        obtain ⟨q, hq, hpq⟩ := List.mem_map.mp hp
        subst hpq
        by_cases hk : q.1 = v
        · rw [if_pos hk]
          intro hnil
          have hnil2 : S.erase h = [] := hnil
          exact hz (by rw [hnil2]; rfl)
        · rw [if_neg hk]
          exact hne q hq

/-! ## Claims -/

/-- C1 (amended): for every sequence of attach/detach operations from the
empty registry in which each attach supplies a handle not already in that
visitor's set and each detach names a handle currently in that visitor's
set — the only sequences the server's connection lifecycle produces —
totalConnections equals the sum of the handle-set sizes and uniqueVisitors
equals the number of non-empty visitor entries. -/
theorem C1_invariant_wf (ops : List Op) (hwf : wfOps registryEmpty ops = true) :
    (runOps registryEmpty ops).totalConnections =
      (sumSizes (runOps registryEmpty ops) : Int) ∧
    uniqueVisitors (runOps registryEmpty ops) =
      nonemptyEntries (runOps registryEmpty ops) := by
  have hinv := runOps_inv ops registryEmpty stateInv_empty hwf
  exact ⟨hinv.2.2, (nonemptyEntries_eq_unique _ fun p hp => (hinv.2.1 p hp).2).symm⟩

/-- Witness for C1: a concrete well-formed sequence satisfies the invariant. -/
theorem C1_invariant_wf_witness :
    wfOps registryEmpty
        [Op.attachOp "v1" 1, Op.attachOp "v1" 2, Op.attachOp "v2" 3,
          Op.detachOp "v1" 1] = true ∧
    ((runOps registryEmpty
        [Op.attachOp "v1" 1, Op.attachOp "v1" 2, Op.attachOp "v2" 3,
          Op.detachOp "v1" 1]).totalConnections =
      (sumSizes (runOps registryEmpty
        [Op.attachOp "v1" 1, Op.attachOp "v1" 2, Op.attachOp "v2" 3,
          Op.detachOp "v1" 1]) : Int) ∧
    uniqueVisitors (runOps registryEmpty
        [Op.attachOp "v1" 1, Op.attachOp "v1" 2, Op.attachOp "v2" 3,
          Op.detachOp "v1" 1]) =
      nonemptyEntries (runOps registryEmpty
        [Op.attachOp "v1" 1, Op.attachOp "v1" 2, Op.attachOp "v2" 3,
          Op.detachOp "v1" 1])) :=
  ⟨by decide, C1_invariant_wf _ (by decide)⟩

/-- Counterexample to C1 as stated: attaching the same handle twice under
the same visitor (the attach path increments the counter unconditionally,
the set does not grow) breaks
totalConnections = sum of handle-set sizes. -/
theorem C1_counterexample_duplicate_attach :
    ¬ ((runOps registryEmpty [Op.attachOp "v1" 7, Op.attachOp "v1" 7]).totalConnections =
      (sumSizes (runOps registryEmpty [Op.attachOp "v1" 7, Op.attachOp "v1" 7]) : Int)) := by
  decide

/-- C2 (amended): detaching the same handle twice changes totalConnections
by exactly -1 in total only when the handle was the visitor's last (the
first detach removes the key, so the second call hits the visitor-presence
guard and no-ops); when the visitor still has another attached handle,
the second call decrements again, for -2 in total, because the close
handler's guard checks visitor presence, not handle presence. -/
theorem C2_double_detach (s : RegistryState) (v : VisitorId) (h : Handle)
    (S : List Handle) (hS : mapGet v s.activeConnections = some S) (hmem : h ∈ S) :
    (S = [h] →
      (detach v h (detach v h s)).totalConnections = s.totalConnections - 1) ∧
    (∀ h2 ∈ S, h2 ≠ h →
      (detach v h (detach v h s)).totalConnections = s.totalConnections - 2) := by
  constructor
  · intro hSh
    subst hSh
    have hz : (([h] : List Handle).erase h).length = 0 := by simp
    rw [detach_eq_remove v h s [h] hS hz,
      detach_of_get_none v h
        { activeConnections := s.activeConnections.filter (fun p => decide (p.1 ≠ v)),
          totalConnections := s.totalConnections - 1 }
        (mapGet_filter_self s.activeConnections v)]
  · intro h2 hh2 hne2
    have herase : h2 ∈ S.erase h := (List.mem_erase_of_ne hne2).mpr hh2
    have hz : ¬(S.erase h).length = 0 := by
      intro h0
      rw [List.length_eq_zero] at h0
      rw [h0] at herase
      simp at herase
    rw [detach_eq_update v h s S hS hz]
    have hget : mapGet v (s.activeConnections.map
        (fun p => (p.1, if p.1 = v then S.erase h else p.2))) = some (S.erase h) := by
      rw [mapGet_map_update]
      simp [hS]
    rw [detach_total_of_get v h
      { activeConnections := s.activeConnections.map
          (fun p => (p.1, if p.1 = v then S.erase h else p.2)),
        totalConnections := s.totalConnections - 1 } (S.erase h) hget]
    show s.totalConnections - 1 - 1 = s.totalConnections - 2
    ring

/-- Witness for C2 (amended): with visitor v1 holding handles 1 and 2,
detaching handle 1 twice moves the counter from 2 to 0, a total change
of -2. -/
theorem C2_double_detach_witness :
    (detach "v1" 1 (detach "v1" 1 (runOps registryEmpty
        [Op.attachOp "v1" 1, Op.attachOp "v1" 2]))).totalConnections =
      (runOps registryEmpty
        [Op.attachOp "v1" 1, Op.attachOp "v1" 2]).totalConnections - 2 :=
  (C2_double_detach _ "v1" 1 [1, 2] (by decide) (by decide)).2 2 (by decide) (by decide)

/-- Counterexample to C2 as stated: the claim asserts a total change of -1
also when the visitor still has other attached handles; in that very case
the code changes the counter by -2. -/
theorem C2_counterexample_other_handles :
    ¬ ((detach "v1" 1 (detach "v1" 1 (runOps registryEmpty
        [Op.attachOp "v1" 1, Op.attachOp "v1" 2]))).totalConnections =
      (runOps registryEmpty
        [Op.attachOp "v1" 1, Op.attachOp "v1" 2]).totalConnections - 1) := by
  decide

/-- C4: the concrete scenario Attach(v1,h1), Attach(v1,h2), Attach(v2,h3),
Detach(v1,h1), Detach(v1,h2), Detach(v2,h3) yields snapshots (1,1), (2,1),
(3,2), (2,2), (1,1), (0,0), with v1 no longer a key after Detach(v1,h2). -/
theorem C4_scenario :
    snap (runOps registryEmpty [Op.attachOp "v1" 1]) = (1, 1) ∧
    snap (runOps registryEmpty [Op.attachOp "v1" 1, Op.attachOp "v1" 2]) = (2, 1) ∧
    snap (runOps registryEmpty
      [Op.attachOp "v1" 1, Op.attachOp "v1" 2, Op.attachOp "v2" 3]) = (3, 2) ∧
    snap (runOps registryEmpty
      [Op.attachOp "v1" 1, Op.attachOp "v1" 2, Op.attachOp "v2" 3,
        Op.detachOp "v1" 1]) = (2, 2) ∧
    (snap (runOps registryEmpty
      [Op.attachOp "v1" 1, Op.attachOp "v1" 2, Op.attachOp "v2" 3,
        Op.detachOp "v1" 1, Op.detachOp "v1" 2]) = (1, 1) ∧
      mapGet "v1" (runOps registryEmpty
        [Op.attachOp "v1" 1, Op.attachOp "v1" 2, Op.attachOp "v2" 3,
          Op.detachOp "v1" 1, Op.detachOp "v1" 2]).activeConnections = none) ∧
    snap (runOps registryEmpty
      [Op.attachOp "v1" 1, Op.attachOp "v1" 2, Op.attachOp "v2" 3,
        Op.detachOp "v1" 1, Op.detachOp "v1" 2, Op.detachOp "v2" 3]) = (0, 0) := by
  decide

/-- C9: detaching under a visitor id that has no entry in the map is a
complete no-op — the state, the counter and the map are unchanged. -/
theorem C9_detach_absent_no_op (s : RegistryState) (v : VisitorId) (h : Handle)
    (hnone : mapGet v s.activeConnections = none) :
    detach v h s = s ∧
    (detach v h s).totalConnections = s.totalConnections ∧
    (detach v h s).activeConnections = s.activeConnections := by
  have heq := detach_of_get_none v h s hnone
  exact ⟨heq, by rw [heq], by rw [heq]⟩

/-- Witness for C9: detaching an unknown visitor from a concrete state
leaves it untouched. -/
theorem C9_detach_absent_no_op_witness :
    detach "v2" 9 (attach "v1" 1 registryEmpty) = attach "v1" 1 registryEmpty :=
  (C9_detach_absent_no_op (attach "v1" 1 registryEmpty) "v2" 9 (by decide)).1

/-- C10: an attach always increments totalConnections by exactly 1, also
when the handle is already in the visitor's set; in that duplicate case
the set does not grow, so the counter strictly exceeds the sum of the
handle-set sizes afterwards. -/
theorem C10_duplicate_attach (s : RegistryState) (v : VisitorId) (h : Handle)
    (S : List Handle) (hnd : (keys s).Nodup)
    (hS : mapGet v s.activeConnections = some S) (hmem : h ∈ S) :
    (attach v h s).totalConnections = s.totalConnections + 1 ∧
    sumSizes (attach v h s) = sumSizes s ∧
    (s.totalConnections = (sumSizes s : Int) →
      (sumSizes (attach v h s) : Int) < (attach v h s).totalConnections) := by
  have haddS : addSet h S = S := if_pos hmem
  have hupd := entrySizes_map_update s.activeConnections v S (addSet h S) hnd hS
  rw [haddS] at hupd
  have hsum : sumSizes (attach v h s) = sumSizes s := by
    rw [attach_eq_add v h s S hS]
    show entrySizes (s.activeConnections.map
      (fun p => (p.1, if p.1 = v then addSet h S else p.2))) = entrySizes s.activeConnections
    rw [haddS]
    omega
  refine ⟨attach_total v h s, hsum, ?_⟩
  intro htot
  rw [hsum, attach_total, htot]
  omega

/-- Witness for C10: re-attaching handle 1, already attached under v1,
leaves the counter strictly above the sum of the set sizes. -/
theorem C10_duplicate_attach_witness :
    (sumSizes (attach "v1" 1 (runOps registryEmpty [Op.attachOp "v1" 1])) : Int) <
      (attach "v1" 1 (runOps registryEmpty [Op.attachOp "v1" 1])).totalConnections :=
  (C10_duplicate_attach (runOps registryEmpty [Op.attachOp "v1" 1]) "v1" 1 [1]
    (by decide) (by decide) (by decide)).2.2 (by decide)

/-- C3 (amended): a failed push or keep-alive send is simply ignored by the
code — the write result is never inspected, each attached handle receives
exactly one write attempt per broadcast regardless of any failures (no
retry, no aborted iteration), and neither a broadcast nor a heartbeat tick
modifies the registry; the handle is detached only by the close handler. -/
theorem C3_send_failure_ignored (s : RegistryState) (ts : String)
    (sendOk : Handle → Bool) (h : Handle) :
    (broadcastCount s ts sendOk).1 = s ∧
    (broadcastCount s ts sendOk).2.map (fun e => e.1) = allHandles s ∧
    (heartbeatSend s h sendOk).1 = s := by
  refine ⟨rfl, ?_, rfl⟩
  exact broadcast_targets s.activeConnections
    ("data: " ++ jsonBody s.totalConnections s.activeConnections.length ts ++ "\n\n") sendOk

/-- Counterexample to C3 as stated: with handle 0 attached under v1 and
every send failing, a broadcast leaves the registry unchanged and handle 0
still attached — the failed push does not trigger its Detach. -/
theorem C3_counterexample_failed_send_stays :
    (broadcastCount (attach "v1" 0 registryEmpty) "t" (fun _ => false)).1 =
        attach "v1" 0 registryEmpty ∧
    0 ∈ currentSet "v1"
        (broadcastCount (attach "v1" 0 registryEmpty) "t" (fun _ => false)).1 := by
  decide

/-- C5: detaching the last remaining handle of a visitor removes that
visitor's key from the map; and after any attach or any detach every
entry of the map keeps a non-empty handle set (so a visitor is present
iff its handle set is non-empty). -/
theorem C5_last_handle_prunes (s : RegistryState)
    (hne : ∀ p ∈ s.activeConnections, p.2 ≠ []) (v : VisitorId) (h : Handle) :
    (mapGet v s.activeConnections = some [h] →
      mapGet v (detach v h s).activeConnections = none) ∧
    (∀ p ∈ (attach v h s).activeConnections, p.2 ≠ []) ∧
    (∀ p ∈ (detach v h s).activeConnections, p.2 ≠ []) := by
  refine ⟨?_, attach_nonempty v h s hne, detach_nonempty v h s hne⟩
  intro hS
  have hz : (([h] : List Handle).erase h).length = 0 := by simp
  rw [detach_eq_remove v h s [h] hS hz]
  exact mapGet_filter_self s.activeConnections v

/-- Witness for C5: v1 holds only handle 1; after detaching it, v1 is no
longer a key of the map. -/
theorem C5_last_handle_prunes_witness :
    mapGet "v1" (detach "v1" 1
      (runOps registryEmpty [Op.attachOp "v1" 1])).activeConnections = none :=
  (C5_last_handle_prunes (runOps registryEmpty [Op.attachOp "v1" 1])
    (by decide) "v1" 1).1 (by decide)

/-- C6: attaching N >= 1 distinct handles under one visitor increases
totalConnections by exactly N and uniqueVisitors by 1 when the visitor was
absent and by 0 when it was already present. -/
theorem C6_multi_attach (s : RegistryState) (v : VisitorId) (hs : List Handle)
    (hlen : hs ≠ []) (_hnd : hs.Nodup) :
    (attachList v hs s).totalConnections = s.totalConnections + hs.length ∧
    uniqueVisitors (attachList v hs s) =
      uniqueVisitors s + (if (mapGet v s.activeConnections).isSome then 0 else 1) := by
  cases hs with
  | nil => cases hlen rfl
  | cons h t =>
      have hstep := attachList_present v t (attach v h s) (attach_isSome v h s)
      rw [attachList_cons]
      refine ⟨?_, ?_⟩
      · rw [hstep.1, attach_total, List.length_cons]
        push_cast
        ring
      · rw [hstep.2, attach_unique]

/-- Witness for C6: attaching handles 5 and 6 under a fresh visitor takes
the counter from 0 to 2 and uniqueVisitors from 0 to 1. -/
theorem C6_multi_attach_witness :
    ([5, 6] : List Handle) ≠ [] ∧
    (attachList "v" [5, 6] registryEmpty).totalConnections =
        registryEmpty.totalConnections + ([5, 6] : List Handle).length ∧
    uniqueVisitors (attachList "v" [5, 6] registryEmpty) =
      uniqueVisitors registryEmpty +
        (if (mapGet "v" registryEmpty.activeConnections).isSome then 0 else 1) :=
  ⟨by decide, C6_multi_attach registryEmpty "v" [5, 6] (by decide) (by decide)⟩

/-- C7: every count-update frame is exactly the string
data: <JSON>(newline)(newline) where the JSON object carries the integer
counts and the ISO-8601 UTC timestamp; the keep-alive frame is exactly the
comment frame built from ": heartbeat" and two newlines and the heartbeat
period is 15000 ms = 15 s per connection. -/
theorem C7_frames (t : Int) (u : Nat) (d : DateUTC) (hd : ValidDate d) :
    countFrame t u (toISOString d) =
        "data: " ++ jsonBody t u (toISOString d) ++ "\n\n" ∧
    IsISO8601UTC (toISOString d) ∧
    heartbeatFrame = ": heartbeat\n\n" ∧
    heartbeatIntervalMs = 15 * 1000 := by
  obtain ⟨h1, h2, h3, h4, h5, h6, h7, h8, h9⟩ := hd
  refine ⟨rfl, ?_, rfl, rfl⟩
  exact ⟨d.year, d.month, d.day, d.hour, d.minute, d.second, d.ms,
    h1, by omega, by omega, by omega, by omega, by omega, h9, rfl⟩

/-- Witness for C7 at a concrete date and concrete counts. -/
theorem C7_frames_witness :
    ValidDate ⟨2026, 10, 12, 9, 30, 0, 0⟩ ∧
    IsISO8601UTC (toISOString ⟨2026, 10, 12, 9, 30, 0, 0⟩) ∧
    countFrame 3 2 (toISOString ⟨2026, 10, 12, 9, 30, 0, 0⟩) =
      "data: " ++ jsonBody 3 2 (toISOString ⟨2026, 10, 12, 9, 30, 0, 0⟩) ++ "\n\n" :=
  ⟨by decide, (C7_frames 3 2 ⟨2026, 10, 12, 9, 30, 0, 0⟩ (by decide)).2.1,
    (C7_frames 3 2 ⟨2026, 10, 12, 9, 30, 0, 0⟩ (by decide)).1⟩

/-- C8: the /health endpoint returns one JSON document with status ok, the
current counter, the current map size and a timestamp, and these counts
are read from the same registry state the broadcaster serializes: every
frame of a broadcast taken at the same state carries exactly the counts
the health document reports. -/
theorem C8_health_matches_broadcast (s : RegistryState) (ts : String)
    (sendOk : Handle → Bool) :
    (healthHandler s ts).status = "ok" ∧
    (healthHandler s ts).timestamp = ts ∧
    ((healthHandler s ts).totalConnections, (healthHandler s ts).uniqueVisitors) =
      snap s ∧
    ∀ e ∈ (broadcastCount s ts sendOk).2,
      e.2.1 = countFrame (healthHandler s ts).totalConnections
        (healthHandler s ts).uniqueVisitors ts := by
  refine ⟨rfl, rfl, rfl, ?_⟩
  intro e he
  have he' : e ∈ s.activeConnections.flatMap
      (fun p => p.2.map (fun h => (h, "data: " ++ jsonBody s.totalConnections
        s.activeConnections.length ts ++ "\n\n", sendOk h))) := he
  obtain ⟨p, hp, he3⟩ := List.mem_flatMap.mp he'
  obtain ⟨h, hh, rfl⟩ := List.mem_map.mp he3
  rfl

/-- Witness for C8: a concrete frame of a concrete broadcast carries the
health counts of the same state. -/
theorem C8_health_matches_broadcast_witness :
    ((0 : Handle), countFrame 1 1 "t", true).2.1 =
      countFrame (healthHandler (attach "v1" 0 registryEmpty) "t").totalConnections
        (healthHandler (attach "v1" 0 registryEmpty) "t").uniqueVisitors "t" :=
  (C8_health_matches_broadcast (attach "v1" 0 registryEmpty) "t" (fun _ => true)).2.2.2
    ((0 : Handle), countFrame 1 1 "t", true) (by decide)

end VisitorTracker
